import Mathlib

/-
Verification of the UART communication core of tools/commFINAL.py:
CRC-8 checksum, message-id allocation, envelope build (send_command) and
parse/dispatch (process_binary_message), the pending-acknowledgment table,
and the receive loop's frame handling (receiver_thread).

Bytes are modelled as natural numbers; byte sequences as List Nat.
Python operations that can raise (list indexing, struct.unpack on a
wrong-sized slice) are modelled in the Option monad: a `none` result of a
modelled function stands for an uncaught exception escaping it.
-/

/-- Command code CMD_ACK = 0x01 from commFINAL.py. -/
def CMD_ACK : Nat := 0x01

/-- Command code CMD_POSITION = 0x21 from commFINAL.py. -/
def CMD_POSITION : Nat := 0x21

/-- Command code CMD_STATUS = 0x22 from commFINAL.py. -/
def CMD_STATUS : Nat := 0x22

/-- Command code CMD_GETPOS = 0x20 from commFINAL.py. -/
def CMD_GETPOS : Nat := 0x20

/-- One round of the inner bit loop of calculate_crc8: if the top bit of the
8-bit register is set, shift left and XOR the polynomial 0x07, else just
shift left; in both cases the register is masked back to 8 bits
(the Python code's crc &= 0xFF). -/
def crc8_round (crc : Nat) : Nat :=
  (if crc &&& 0x80 ≠ 0 then (crc <<< 1) ^^^ 0x07 else crc <<< 1) &&& 0xFF

/-- calculate_crc8 from commFINAL.py: the register starts at 0xFF; for each
input byte, the byte is XORed into the register and then eight rounds of
crc8_round are applied. The final register value is returned with no
final XOR. -/
def calculate_crc8 (data : List Nat) : Nat :=
  data.foldl (fun crc b => crc8_round^[8] (crc ^^^ b)) 0xFF

/-- Specification-side CRC-8 round, written from the spec's words
(section 4.1): most-significant-bit-first processing of an 8-bit register,
polynomial 0x07; the register is doubled (shifted towards the MSB), reduced
modulo 256, and XORed with the polynomial exactly when the bit shifted out
was set. -/
def crc8_spec_round (r : Nat) : Nat :=
  if 128 ≤ r then ((2 * r) % 256) ^^^ 7 else (2 * r) % 256

/-- Specification-side CRC-8 (section 4.1 of the spec): initial register
value 0xFF = 255, one byte at a time (XOR into the register, then eight
MSB-first rounds), no final XOR. -/
def crc8_spec (data : List Nat) : Nat :=
  data.foldl (fun r b => crc8_spec_round^[8] (r ^^^ b)) 255

/-- generate_msg_id from commFINAL.py. The Python loop starts from
new_id = last_sent_id (so it always enters the retry loop) and repeatedly
draws random.randint(1, 255) until the draw differs from last_sent_id and
from 0x00. `draws` is the finite prefix of values the random source
produces; `none` models a source that never yields an acceptable value
(the Python loop would keep drawing forever). The caller stores the
returned id into last_sent_id, mirroring the global update. -/
def generate_msg_id (draws : List Nat) (last : Nat) : Option Nat :=
  match draws with
  | [] => none
  | d :: rest => if d = last ∨ d = 0 then generate_msg_id rest last else some d

/-- One entry of the pending_acks table from commFINAL.py: the original
command, the send timestamp (time.time(), modelled as a Nat), and the
acknowledged flag. -/
structure Transaction where
  cmd : Nat
  timestamp : Nat
  acked : Bool
deriving DecidableEq

/-- The mutable globals of commFINAL.py shared by sender and receiver:
last_sent_id and the pending_acks dictionary (modelled as a map from
message id to an optional entry). -/
structure CommState where
  last_sent_id : Nat
  pending_acks : Nat → Option Transaction

/-- Envelope construction from send_command lines 100-105:
raw_command = [cmd_type, msg_id, len(data)] ++ data, then the CRC8 of
raw_command is appended. -/
def build_envelope (cmd_type msg_id : Nat) (data : List Nat) : List Nat :=
  (cmd_type :: msg_id :: data.length :: data)
    ++ [calculate_crc8 (cmd_type :: msg_id :: data.length :: data)]

/-- send_command from commFINAL.py, modelled up to the point where the
call returns for ACK commands (line 135): allocate a message id (which
updates last_sent_id), build the envelope, register a pending_acks entry
for it (this happens unconditionally, before the CMD_ACK early-return
check), and write the envelope to the link. COBS encoding of the frame is
a total reversible transform on these byte sequences, so it is elided; the
returned List Nat is the envelope written. The Bool is true exactly when
cmd_type is CMD_ACK, i.e. when the Python function returns True
immediately without waiting for an acknowledgment. `none` models the
message-id retry loop never terminating. -/
def send_command (draws : List Nat) (now : Nat) (st : CommState)
    (cmd_type : Nat) (data : List Nat) :
    Option (CommState × List Nat × Bool) :=
  match generate_msg_id draws st.last_sent_id with
  | none => none
  | some msg_id =>
      some ({ last_sent_id := msg_id,
              pending_acks := fun k =>
                if k = msg_id then some ⟨cmd_type, now, false⟩
                else st.pending_acks k },
            build_envelope cmd_type msg_id data,
            cmd_type == CMD_ACK)

/-- Outcome of the header checks of process_binary_message lines 190-212:
the message is dropped as too short (fewer than 4 bytes), dropped for a
length-field mismatch (len(decoded) != data_length + 4), dropped for the
reserved message id 0, or accepted with its fields extracted and the
checksum comparison result recorded. The code computes crc_valid before
the id-0 check but only consults it later, so the ok constructor carries
it as a field. -/
inductive ParseResult where
  | tooShort (got : Nat)
  | lengthMismatch (expected got : Nat)
  | invalidId
  | ok (cmd_type msg_id data_length : Nat) (payload : List Nat)
      (received_crc : Nat) (crc_valid : Bool)
deriving DecidableEq

/-- Header extraction and validation of process_binary_message
lines 190-212. List indexing is modelled with get?, so a `none` result
stands for an uncaught IndexError (shown later to be impossible).
payload is decoded[3:-1]. -/
def parse_envelope (decoded : List Nat) : Option ParseResult :=
  if decoded.length < 4 then some (ParseResult.tooShort decoded.length)
  else
    match decoded.get? 0, decoded.get? 1, decoded.get? 2 with
    | some cmd_type, some msg_id, some data_length =>
        if decoded.length ≠ data_length + 4 then
          some (ParseResult.lengthMismatch (data_length + 4) decoded.length)
        else
          match decoded.getLast? with
          | some received_crc =>
              if msg_id = 0 then some ParseResult.invalidId
              else
                some (ParseResult.ok cmd_type msg_id data_length
                  ((decoded.drop 3).dropLast) received_crc
                  (received_crc == calculate_crc8 decoded.dropLast))
          | none => none
    | _, _, _ => none

/-- Little-endian value of a byte list (struct.unpack's byte order). -/
def le_bytes_to_nat (l : List Nat) : Nat :=
  l.foldr (fun b acc => b + 256 * acc) 0

/-- Signed 32-bit little-endian decode, struct.unpack of format <i. -/
def int32_of_le (l : List Nat) : Int :=
  let n := le_bytes_to_nat l
  if n < 2 ^ 31 then (n : Int) else (n : Int) - 2 ^ 32

/-- Four-byte slice data[off:off+4]; none when the slice is shorter than
four bytes, which is when struct.unpack would raise (and be caught by the
telemetry try/except). -/
def slice4 (data : List Nat) (off : Nat) : Option (List Nat) :=
  let s := (data.drop off).take 4
  if s.length = 4 then some s else none

/-- Observable effects of one process_binary_message call that are not
byte output: drops, ACK resolution, telemetry surfaced via iprint
(the float temperature is carried as its 32-bit little-endian pattern;
its display format belongs to the presentation layer), telemetry parse
errors caught by the try/except, and the always-on CRC error report
(eprint). -/
inductive LogEvent where
  | tooShort (got : Nat)
  | lengthMismatch (expected got : Nat)
  | invalidId
  | ackResolved (id : Nat)
  | ackUnmatched (id : Nat)
  | statusReport (tempBits : Nat) (x y z : Int) (enabled paused : Bool)
      (fan : Nat)
  | positionReport (x y z : Int)
  | telemetryError
  | crcError (id : Nat)
deriving DecidableEq

/-- The data-processing block of process_binary_message lines 222-261
(executed when data_length > 0, before the CRC validity is consulted):
ACK payloads resolve or log an unmatched pending transaction; STATUS
payloads of at least 19 bytes and POSITION payloads of at least 12 bytes
are decoded and surfaced, with unpack failures caught and logged; other
commands have no data side effect. The data[0] access in the ACK branch
is outside any try block, so its failure would propagate (none). The
code's inner data_length >= 1 test is subsumed by data_length > 0. -/
def processData (st : CommState) (cmd_type data_length : Nat)
    (data : List Nat) : Option (CommState × List LogEvent) :=
  if data_length = 0 then some (st, [])
  else if cmd_type = CMD_ACK then
    match data.get? 0 with
    | none => none
    | some acked_id =>
        match st.pending_acks acked_id with
        | some t =>
            some ({ st with pending_acks := fun k =>
                      if k = acked_id then some { t with acked := true }
                      else st.pending_acks k },
                  [LogEvent.ackResolved acked_id])
        | none => some (st, [LogEvent.ackUnmatched acked_id])
  else if cmd_type = CMD_STATUS then
    if 19 ≤ data_length then
      match slice4 data 0, slice4 data 4, slice4 data 8, slice4 data 12,
          data.get? 16, data.get? 17, data.get? 18 with
      | some tb, some xb, some yb, some zb, some e, some p, some f =>
          some (st, [LogEvent.statusReport (le_bytes_to_nat tb)
            (int32_of_le xb) (int32_of_le yb) (int32_of_le zb)
            (e != 0) (p != 0) f])
      | _, _, _, _, _, _, _ => some (st, [LogEvent.telemetryError])
    else some (st, [])
  else if cmd_type = CMD_POSITION then
    if 12 ≤ data_length then
      match slice4 data 0, slice4 data 4, slice4 data 8 with
      | some xb, some yb, some zb =>
          some (st, [LogEvent.positionReport (int32_of_le xb)
            (int32_of_le yb) (int32_of_le zb)])
      | _, _, _ => some (st, [LogEvent.telemetryError])
    else some (st, [])
  else some (st, [])

/-- Result of one process_binary_message call: the updated shared state,
the envelopes written back to the link (by the auto-ack path), and the
logged events. -/
structure DispatchOutcome where
  st : CommState
  sent : List (List Nat)
  events : List LogEvent

/-- process_binary_message from commFINAL.py (the dispatcher): header
checks (parse_envelope), then the data-processing block, then the
always-on CRC error report, then the auto-ack (send_command with CMD_ACK
and payload [msg_id]) for checksum-valid non-ACK messages. Note the code
consults crc_valid only for the report and the auto-ack, after the data
block has already run. -/
def process_binary_message (draws : List Nat) (now : Nat) (st : CommState)
    (decoded : List Nat) : Option DispatchOutcome :=
  match parse_envelope decoded with
  | none => none
  | some (ParseResult.tooShort n) =>
      some ⟨st, [], [LogEvent.tooShort n]⟩
  | some (ParseResult.lengthMismatch e g) =>
      some ⟨st, [], [LogEvent.lengthMismatch e g]⟩
  | some ParseResult.invalidId =>
      some ⟨st, [], [LogEvent.invalidId]⟩
  | some (ParseResult.ok cmd_type msg_id data_length payload _ crc_valid) =>
      match processData st cmd_type data_length payload with
      | none => none
      | some (st1, ev1) =>
          let ev2 := if crc_valid then ev1 else ev1 ++ [LogEvent.crcError msg_id]
          if cmd_type ≠ CMD_ACK ∧ crc_valid = true then
            match send_command draws now st1 CMD_ACK [msg_id] with
            | none => none
            | some (st2, env, _) => some ⟨st2, [env], ev2⟩
          else some ⟨st1, [], ev2⟩

/-- Outcome of one iteration of receiver_thread for one frame read from
the link: skipped (empty or delimiter-only read, lines 155-163), discarded
as oversized with a logged warning (lines 169-171), dropped on a COBS
decoding error caught at lines 178-180, or decoded and handed to
process_binary_message (line 177). In every case the loop proceeds to the
next iteration. -/
inductive RxOutcome where
  | skipped
  | oversized
  | decodeError
  | dispatched (decoded : List Nat)
deriving DecidableEq

/-- Delimiter stripping of receiver_thread lines 159-160: if the frame
ends with the 0x00 delimiter, drop that last byte. -/
def strip_delimiter (frame : List Nat) : List Nat :=
  if frame.getLast? = some 0 then frame.dropLast else frame

/-- One iteration of receiver_thread from commFINAL.py, for a frame
returned by ser.read_until: skip empty or single-byte reads, strip a
trailing delimiter, skip if nothing remains, discard frames longer than
50 bytes, otherwise run the COBS decoder (an arbitrary parameter here)
and on success hand the decoded bytes to the dispatcher. The function is
total: no frame crashes the iteration. -/
def receiver_iteration (decode : List Nat → Option (List Nat))
    (frame : List Nat) : RxOutcome :=
  if frame.length ≤ 1 then RxOutcome.skipped
  else if (strip_delimiter frame).length = 0 then RxOutcome.skipped
  else if 50 < (strip_delimiter frame).length then RxOutcome.oversized
  else
    match decode (strip_delimiter frame) with
    | none => RxOutcome.decodeError
    | some d => RxOutcome.dispatched d

set_option maxRecDepth 4000 in
theorem crc8_round8_eq : ∀ r < 256,
    crc8_round^[8] r = crc8_spec_round^[8] r ∧ crc8_round^[8] r < 256 := by
  decide

theorem crc8_foldl_eq (data : List Nat) :
    (∀ b ∈ data, b < 256) → ∀ r, r < 256 →
      data.foldl (fun c b => crc8_round^[8] (c ^^^ b)) r
          = data.foldl (fun c b => crc8_spec_round^[8] (c ^^^ b)) r
        ∧ data.foldl (fun c b => crc8_round^[8] (c ^^^ b)) r < 256 := by
  induction data with
  | nil =>
    intro _ r hr
    rw [List.foldl_nil, List.foldl_nil]
    exact ⟨rfl, hr⟩
  | cons b rest ih =>
    intro hb r hr
    have hbb : b < 256 := hb b (List.mem_cons_self b rest)
    have hxor : r ^^^ b < 256 := @Nat.xor_lt_two_pow r b 8 hr hbb
    obtain ⟨he, hlt⟩ := crc8_round8_eq (r ^^^ b) hxor
    have hrest : ∀ x ∈ rest, x < 256 :=
      fun x hx => hb x (List.mem_cons_of_mem b hx)
    obtain ⟨ihe, ihlt⟩ := ih hrest (crc8_round^[8] (r ^^^ b)) hlt
    rw [he] at ihe ihlt
    constructor
    · simp only [List.foldl_cons]
      rw [he]
      exact ihe
    · simp only [List.foldl_cons]
      rw [he]
      exact ihlt

/-- Claim C4: calculate_crc8 computes exactly the CRC-8 with polynomial 0x07,
initial register value 0xFF, MSB-first processing of one byte at a time and
no final XOR (equality with the spec-side definition crc8_spec); its result
always fits in 8 bits; and on the empty input it returns the initial value
0xFF. Determinism and purity hold because it is a total function of its
input and nothing else. -/
theorem crc8_matches_spec (data : List Nat) (hb : ∀ b ∈ data, b < 256) :
    calculate_crc8 data = crc8_spec data
      ∧ calculate_crc8 data < 256
      ∧ calculate_crc8 [] = 0xFF := by
  obtain ⟨he, hlt⟩ := crc8_foldl_eq data hb 255 (by norm_num)
  exact ⟨he, hlt, rfl⟩

/-- Witness for C4 at the concrete input [0x20, 0x05, 0x00] (the header of
the spec's end-to-end GETPOS example). -/
theorem crc8_matches_spec_witness :
    calculate_crc8 [0x20, 0x05, 0x00] = crc8_spec [0x20, 0x05, 0x00]
      ∧ calculate_crc8 [0x20, 0x05, 0x00] < 256
      ∧ calculate_crc8 [] = 0xFF :=
  crc8_matches_spec [0x20, 0x05, 0x00] (by decide)

theorem parse_envelope_eq (c i dl rc : Nat) (payload : List Nat)
    (hlen : payload.length = dl) (hi : i ≠ 0) :
    parse_envelope ((c :: i :: dl :: payload) ++ [rc]) =
      some (ParseResult.ok c i dl payload rc
        (rc == calculate_crc8 (c :: i :: dl :: payload))) := by
  subst hlen
  unfold parse_envelope
  have e2 : c :: i :: payload.length :: (payload ++ [rc])
      = (c :: i :: payload.length :: payload) ++ [rc] := by simp
  have h1 : ¬ (payload.length + 1 + 1 + 1 + 1 < 4) := by omega
  have h2 : ¬ (payload.length + 1 + 1 + 1 + 1 ≠ payload.length + 4) := by
    omega
  simp only [List.cons_append, List.length_cons, List.length_append,
    List.length_singleton, List.get?_cons_zero, List.get?_cons_succ,
    List.drop_succ_cons, List.drop_zero]
  simp only [h1, h2, e2, List.getLast?_concat, List.dropLast_concat,
    if_false, ite_false]
  simp [hi]

theorem parse_envelope_cases (decoded : List Nat) :
    ∃ r, parse_envelope decoded = some r ∧
      ∀ c i dl payload rc cv, r = ParseResult.ok c i dl payload rc cv →
        payload.length = dl := by
  rcases decoded with _ | ⟨x0, _ | ⟨x1, _ | ⟨x2, _ | ⟨x3, rest⟩⟩⟩⟩
  · exact ⟨ParseResult.tooShort 0, by simp [parse_envelope], nofun⟩
  · exact ⟨ParseResult.tooShort 1, by simp [parse_envelope], nofun⟩
  · exact ⟨ParseResult.tooShort 2, by simp [parse_envelope], nofun⟩
  · exact ⟨ParseResult.tooShort 3, by simp [parse_envelope], nofun⟩
  · have hlen : (x0 :: x1 :: x2 :: x3 :: rest).length = rest.length + 4 := by
      simp
    obtain ⟨y, hy⟩ : ∃ y, (x3 :: rest).getLast? = some y := by
      cases hgl : (x3 :: rest).getLast? with
      | none =>
          have := List.getLast?_isSome.mpr
            (show (x3 :: rest) ≠ [] by simp)
          rw [hgl] at this
          simp at this
      | some y => exact ⟨y, rfl⟩
    by_cases hm : (x0 :: x1 :: x2 :: x3 :: rest).length = x2 + 4
    · by_cases hz : x1 = 0
      · refine ⟨ParseResult.invalidId, ?_, nofun⟩
        unfold parse_envelope
        rw [if_neg (by omega)]
        simp only [List.get?_cons_zero, List.get?_cons_succ]
        rw [if_neg (by omega), List.getLast?_cons_cons,
          List.getLast?_cons_cons, List.getLast?_cons_cons, hy]
        simp [hz]
      · refine ⟨ParseResult.ok x0 x1 x2
          ((x0 :: x1 :: x2 :: x3 :: rest).drop 3).dropLast y
          (y == calculate_crc8 (x0 :: x1 :: x2 :: x3 :: rest).dropLast),
          ?_, ?_⟩
        · unfold parse_envelope
          rw [if_neg (by omega)]
          simp only [List.get?_cons_zero, List.get?_cons_succ]
          rw [if_neg (by omega), List.getLast?_cons_cons,
            List.getLast?_cons_cons, List.getLast?_cons_cons, hy]
          simp [hz]
        · intro c i dl payload rc cv h
          injection h with hc hii hdl hp hrc hcv
          subst hdl
          subst hp
          simp only [List.length_cons] at hm
          simp only [List.length_dropLast, List.length_drop,
            List.length_cons]
          omega
    · refine ⟨ParseResult.lengthMismatch (x2 + 4)
        (x0 :: x1 :: x2 :: x3 :: rest).length, ?_, nofun⟩
      unfold parse_envelope
      rw [if_neg (by omega)]
      simp only [List.get?_cons_zero, List.get?_cons_succ]
      rw [if_pos (by omega)]

theorem processData_isSome (st : CommState) (c dl : Nat) (data : List Nat)
    (hl : data.length = dl) : (processData st c dl data).isSome := by
  unfold processData
  by_cases h0 : dl = 0
  · simp [h0]
  · rw [if_neg h0]
    by_cases hack : c = CMD_ACK
    · rw [if_pos hack]
      rcases data with _ | ⟨b, rest⟩
      · simp at hl
        omega
      · simp only [List.get?_cons_zero]
        cases st.pending_acks b <;> simp
    · rw [if_neg hack]
      by_cases hs : c = CMD_STATUS
      · rw [if_pos hs]
        by_cases h19 : 19 ≤ dl
        · rw [if_pos h19]
          split <;> simp
        · rw [if_neg h19]
          simp
      · rw [if_neg hs]
        by_cases hp : c = CMD_POSITION
        · rw [if_pos hp]
          by_cases h12 : 12 ≤ dl
          · rw [if_pos h12]
            split <;> simp
          · rw [if_neg h12]
            simp
        · rw [if_neg hp]
          simp

theorem processData_nonack (st : CommState) (c dl : Nat) (data : List Nat)
    (hc : c ≠ CMD_ACK) :
    ∃ ev, processData st c dl data = some (st, ev) := by
  unfold processData
  by_cases h0 : dl = 0
  · exact ⟨[], by rw [if_pos h0]⟩
  · rw [if_neg h0, if_neg hc]
    by_cases hs : c = CMD_STATUS
    · rw [if_pos hs]
      by_cases h19 : 19 ≤ dl
      · rw [if_pos h19]
        split
        · exact ⟨_, rfl⟩
        · exact ⟨_, rfl⟩
      · rw [if_neg h19]
        exact ⟨[], rfl⟩
    · rw [if_neg hs]
      by_cases hp : c = CMD_POSITION
      · rw [if_pos hp]
        by_cases h12 : 12 ≤ dl
        · rw [if_pos h12]
          split
          · exact ⟨_, rfl⟩
          · exact ⟨_, rfl⟩
        · rw [if_neg h12]
          exact ⟨[], rfl⟩
      · rw [if_neg hp]
        exact ⟨[], rfl⟩

theorem processData_ack_found (st : CommState) (dl : Nat) (data : List Nat)
    (a : Nat) (t : Transaction) (h0 : dl ≠ 0) (hget : data.get? 0 = some a)
    (hp : st.pending_acks a = some t) :
    processData st CMD_ACK dl data =
      some ({ st with pending_acks := fun k =>
                if k = a then some { t with acked := true }
                else st.pending_acks k },
            [LogEvent.ackResolved a]) := by
  unfold processData
  rw [if_neg h0, if_pos rfl, hget]
  simp only []
  rw [hp]

/-- Claim C3: for every command byte, every message_id in 1-255 and every payload
of at most 255 bytes, parsing the bytes produced by build_envelope succeeds
and yields the same command, message_id, length and payload, with the
recomputed checksum matching the trailing checksum byte (crc_valid =
true). -/
theorem envelope_roundtrip (c i : Nat) (data : List Nat)
    (hc : c ≤ 255) (hi1 : 1 ≤ i) (hi2 : i ≤ 255)
    (hlen : data.length ≤ 255) :
    parse_envelope (build_envelope c i data) =
      some (ParseResult.ok c i data.length data
        (calculate_crc8 (c :: i :: data.length :: data)) true) := by
  unfold build_envelope
  rw [parse_envelope_eq c i data.length _ data rfl (by omega)]
  simp

/-- Witness for C3 at the spec's end-to-end GETPOS example
(command 0x20, id 0x05, empty payload). -/
theorem envelope_roundtrip_witness :
    parse_envelope (build_envelope 0x20 0x05 []) =
      some (ParseResult.ok 0x20 0x05 0 []
        (calculate_crc8 [0x20, 0x05, 0]) true) :=
  envelope_roundtrip 0x20 0x05 [] (by decide) (by decide) (by decide)
    (by decide)

/-- Claim C6: every id returned by generate_msg_id lies in 1-255 (given that
random.randint(1, 255) only yields values in that range), is never 0 and
never equals the previously returned id held in last_sent_id; this covers
the first call as well, whose predecessor is the reserved sentinel 0 that
last_sent_id is initialized to. -/
theorem generate_msg_id_valid (draws : List Nat) (last : Nat) :
    (∀ d ∈ draws, 1 ≤ d ∧ d ≤ 255) →
      ∀ id, generate_msg_id draws last = some id →
        1 ≤ id ∧ id ≤ 255 ∧ id ≠ 0 ∧ id ≠ last := by
  induction draws with
  | nil =>
    intro _ id h
    simp [generate_msg_id] at h
  | cons d rest ih =>
    intro hd id h
    simp only [generate_msg_id] at h
    by_cases hcond : d = last ∨ d = 0
    · rw [if_pos hcond] at h
      exact ih (fun x hx => hd x (List.mem_cons_of_mem d hx)) id h
    · rw [if_neg hcond] at h
      injection h with h
      subst h
      push_neg at hcond
      obtain ⟨hd1, hd2⟩ := hd d (List.mem_cons_self d rest)
      exact ⟨hd1, hd2, hcond.2, hcond.1⟩

/-- Witness for C6: the first call with last_sent_id = 0 and a single
draw 5 returns 5, which is in range, nonzero and differs from the
sentinel predecessor 0. -/
theorem generate_msg_id_valid_witness :
    1 ≤ 5 ∧ 5 ≤ 255 ∧ 5 ≠ 0 ∧ 5 ≠ 0 :=
  generate_msg_id_valid [5] 0 (by decide) 5 rfl

/-- Claim C7: any decoded message of at least 4 bytes whose length field
(third byte) does not equal the total byte count minus 4 is dropped at
the length check with a length-mismatch: parse_envelope returns
lengthMismatch (never checksum-related, and the checksum comparison in
parse_envelope is only ever computed in the ok branch, which is not
reached), and process_binary_message drops the message with no state
change, no output and only the length-mismatch log. Truncating a
payload while keeping the length field is the special case where
dl is the stale length of the longer original. -/
theorem length_mismatch_drops (draws : List Nat) (now : Nat)
    (st : CommState) (decoded : List Nat) (dl : Nat)
    (h4 : 4 ≤ decoded.length) (hdl : decoded.get? 2 = some dl)
    (hm : dl ≠ decoded.length - 4) :
    parse_envelope decoded =
        some (ParseResult.lengthMismatch (dl + 4) decoded.length)
      ∧ process_binary_message draws now st decoded =
        some ⟨st, [], [LogEvent.lengthMismatch (dl + 4) decoded.length]⟩ := by
  rcases decoded with _ | ⟨x0, _ | ⟨x1, _ | ⟨x2, rest⟩⟩⟩
  · simp only [List.length_nil] at h4
    omega
  · simp only [List.length_cons, List.length_nil] at h4
    omega
  · simp only [List.length_cons, List.length_nil] at h4
    omega
  · simp only [List.get?_cons_succ, List.get?_cons_zero] at hdl
    injection hdl with hdl
    subst hdl
    simp only [List.length_cons] at h4 hm ⊢
    have hp1 : parse_envelope (x0 :: x1 :: x2 :: rest) =
        some (ParseResult.lengthMismatch (x2 + 4)
          (rest.length + 1 + 1 + 1)) := by
      unfold parse_envelope
      simp only [List.length_cons, List.get?_cons_zero,
        List.get?_cons_succ]
      rw [if_neg (by omega), if_pos (by omega)]
    refine ⟨hp1, ?_⟩
    unfold process_binary_message
    rw [hp1]

/-- Witness for C7: the envelope [0x01, 0x05, 0x03, 0x07, 0x63] claims a
3-byte payload (as if [0x07, 0x08, 0x09] had been truncated to [0x07])
but is 5 bytes in total, so it fails with length-mismatch. -/
theorem length_mismatch_drops_witness :
    parse_envelope [1, 5, 3, 7, 99] =
        some (ParseResult.lengthMismatch (3 + 4) 5)
      ∧ process_binary_message [] 0 ⟨0, fun _ => none⟩ [1, 5, 3, 7, 99] =
        some ⟨⟨0, fun _ => none⟩, [],
          [LogEvent.lengthMismatch (3 + 4) 5]⟩ :=
  length_mismatch_drops [] 0 ⟨0, fun _ => none⟩ [1, 5, 3, 7, 99] 3
    (by decide) rfl (by decide)

/-- Claim C8: a frame whose length after stripping the trailing delimiter
exceeds 50 bytes makes the receiver iteration log the oversized warning
and discard the frame: the outcome is oversized for every possible COBS
decoder, so the frame is never decoded and never handed to
process_binary_message, and the iteration returns normally so the loop
continues. -/
theorem oversized_frame_discarded
    (decode : List Nat → Option (List Nat)) (frame : List Nat)
    (h : 50 < (strip_delimiter frame).length) :
    receiver_iteration decode frame = RxOutcome.oversized := by
  have hle : (strip_delimiter frame).length ≤ frame.length := by
    unfold strip_delimiter
    split
    · simp only [List.length_dropLast]
      omega
    · omega
  unfold receiver_iteration
  rw [if_neg (by omega), if_neg (by omega), if_pos h]

/-- Witness for C8: a 53-byte frame (52 ones plus the delimiter) is
discarded as oversized, here with the identity-like decoder some. -/
theorem oversized_frame_discarded_witness :
    receiver_iteration some (List.replicate 52 1 ++ [0]) =
      RxOutcome.oversized :=
  oversized_frame_discarded some (List.replicate 52 1 ++ [0]) (by decide)

theorem dispatch_auto_ack (draws : List Nat) (now : Nat) (st : CommState)
    (c i dl newId : Nat) (payload : List Nat)
    (hlen : payload.length = dl) (hi : i ≠ 0) (hc : c ≠ CMD_ACK)
    (hgen : generate_msg_id draws st.last_sent_id = some newId) :
    ∃ ev, process_binary_message draws now st
        ((c :: i :: dl :: payload)
          ++ [calculate_crc8 (c :: i :: dl :: payload)])
      = some ⟨{ last_sent_id := newId,
                pending_acks := fun k =>
                  if k = newId then some ⟨CMD_ACK, now, false⟩
                  else st.pending_acks k },
              [build_envelope CMD_ACK newId [i]], ev⟩ := by
  obtain ⟨ev1, hpd⟩ := processData_nonack st c dl payload hc
  refine ⟨ev1, ?_⟩
  unfold process_binary_message
  rw [parse_envelope_eq c i dl (calculate_crc8 (c :: i :: dl :: payload))
    payload hlen hi]
  simp only []
  rw [hpd]
  simp only [beq_self_eq_true]
  rw [if_pos ⟨hc, trivial⟩]
  unfold send_command
  rw [hgen]
  simp

/-- Claim C5: delivering a well-formed (correct length field, message id in
1-255), checksum-valid envelope whose command is not ACK makes the
dispatcher write exactly one envelope back to the link, and that envelope
is an ACK envelope (command byte CMD_ACK, length 1) whose single payload
byte - in particular its first payload byte - is the inbound envelope's
message_id i. newId is the id the allocator yields for the outbound
ack. -/
theorem auto_ack_exactly_one (draws : List Nat) (now : Nat)
    (st : CommState) (c i dl newId : Nat) (payload : List Nat)
    (hlen : payload.length = dl) (hi : i ≠ 0) (hc : c ≠ CMD_ACK)
    (hgen : generate_msg_id draws st.last_sent_id = some newId) :
    ∃ st2 ev, process_binary_message draws now st
        ((c :: i :: dl :: payload)
          ++ [calculate_crc8 (c :: i :: dl :: payload)])
      = some ⟨st2,
          [[CMD_ACK, newId, 1, i, calculate_crc8 [CMD_ACK, newId, 1, i]]],
          ev⟩ := by
  obtain ⟨ev, h⟩ := dispatch_auto_ack draws now st c i dl newId payload
    hlen hi hc hgen
  refine ⟨{ last_sent_id := newId,
            pending_acks := fun k =>
              if k = newId then some ⟨CMD_ACK, now, false⟩
              else st.pending_acks k }, ev, ?_⟩
  rw [h]
  rfl

/-- Witness for C5: a checksum-valid STATUS request envelope with id 5 and
empty payload is acknowledged with exactly one ACK envelope carrying
payload [5], the allocator drawing id 9. -/
theorem auto_ack_exactly_one_witness :
    ∃ st2 ev, process_binary_message [9] 100 ⟨0, fun _ => none⟩
        ((0x22 :: 5 :: 0 :: []) ++ [calculate_crc8 (0x22 :: 5 :: 0 :: [])])
      = some ⟨st2, [[CMD_ACK, 9, 1, 5, calculate_crc8 [CMD_ACK, 9, 1, 5]]],
          ev⟩ :=
  auto_ack_exactly_one [9] 100 ⟨0, fun _ => none⟩ 0x22 5 0 9 []
    rfl (by decide) (by decide) rfl

set_option maxRecDepth 8000 in
/-- Counterexample for C2: after the dispatcher auto-acks a checksum-valid
non-ACK envelope, the pending-transaction table does contain an entry
created for that outbound ack (id 9 drawn by the allocator, command
CMD_ACK, timestamp 100, unacknowledged), contradicting the claim that no
such entry exists. The sent list confirms the ack was emitted in this
run. -/
theorem auto_ack_registers_transaction_cex :
    (process_binary_message [9] 100 ⟨0, fun _ => none⟩
        ([0x22, 5, 0] ++ [calculate_crc8 [0x22, 5, 0]])).map
      (fun o => (o.sent, o.st.pending_acks 9)) =
    some ([[1, 9, 1, 5, calculate_crc8 [1, 9, 1, 5]]],
      some ⟨CMD_ACK, 100, false⟩) := by
  decide

/-- Claim C2 as amended: the dispatcher's automatic acknowledgment is emitted
through send_command, which returns success immediately for CMD_ACK
(no waiting for an ack of the ack, last map-conjunct), but it does
register a pending transaction for the outbound ack: after the ack is
sent the table contains a fresh entry for the drawn id newId holding
command CMD_ACK, the send timestamp and acked = false, while every other
entry and nothing else changes besides last_sent_id. -/
theorem auto_ack_fire_and_forget (draws : List Nat) (now : Nat)
    (st : CommState) (c i dl newId : Nat) (payload : List Nat)
    (hlen : payload.length = dl) (hi : i ≠ 0) (hc : c ≠ CMD_ACK)
    (hgen : generate_msg_id draws st.last_sent_id = some newId) :
    ∃ st2 ev, process_binary_message draws now st
        ((c :: i :: dl :: payload)
          ++ [calculate_crc8 (c :: i :: dl :: payload)])
      = some ⟨st2, [build_envelope CMD_ACK newId [i]], ev⟩
      ∧ st2.pending_acks newId = some ⟨CMD_ACK, now, false⟩
      ∧ (∀ k, k ≠ newId → st2.pending_acks k = st.pending_acks k)
      ∧ st2.last_sent_id = newId
      ∧ (send_command draws now st CMD_ACK [i]).map (fun r => r.2.2)
          = some true := by
  obtain ⟨ev, h⟩ := dispatch_auto_ack draws now st c i dl newId payload
    hlen hi hc hgen
  refine ⟨_, ev, h, by simp, ?_, rfl, ?_⟩
  · intro k hk
    simp [hk]
  · unfold send_command
    rw [hgen]
    rfl

/-- Witness for C2's amended statement at the same concrete run as the
counterexample. -/
theorem auto_ack_fire_and_forget_witness :
    ∃ st2 ev, process_binary_message [9] 100 ⟨0, fun _ => none⟩
        ((0x22 :: 5 :: 0 :: []) ++ [calculate_crc8 (0x22 :: 5 :: 0 :: [])])
      = some ⟨st2, [build_envelope CMD_ACK 9 [5]], ev⟩
      ∧ st2.pending_acks 9 = some ⟨CMD_ACK, 100, false⟩
      ∧ (∀ k, k ≠ 9 →
          st2.pending_acks k = (⟨0, fun _ => none⟩ : CommState).pending_acks k)
      ∧ st2.last_sent_id = 9
      ∧ (send_command [9] 100 ⟨0, fun _ => none⟩ CMD_ACK [5]).map
          (fun r => r.2.2) = some true :=
  auto_ack_fire_and_forget [9] 100 ⟨0, fun _ => none⟩ 0x22 5 0 9 []
    rfl (by decide) (by decide) rfl

/-- Claim C9: when the dispatcher resolves a pending transaction on receipt of
an acknowledgment envelope whose first payload byte a has a pending
entry t, the only state change is setting that entry's acked flag: the
entry keeps its stored command and send timestamp, every other id maps
to exactly what it mapped to before, last_sent_id is unchanged, and
nothing is written to the link (acknowledgments are never themselves
acknowledged). This holds whatever the trailing checksum byte rc is. -/
theorem ack_resolution_minimal_change (draws : List Nat) (now : Nat)
    (st : CommState) (i dl rc a : Nat) (payload : List Nat)
    (t : Transaction) (hlen : payload.length = dl) (hi : i ≠ 0)
    (hget : payload.get? 0 = some a) (hp : st.pending_acks a = some t) :
    ∃ st2 ev, process_binary_message draws now st
        ((CMD_ACK :: i :: dl :: payload) ++ [rc]) = some ⟨st2, [], ev⟩
      ∧ st2.pending_acks a = some ⟨t.cmd, t.timestamp, true⟩
      ∧ (∀ k, k ≠ a → st2.pending_acks k = st.pending_acks k)
      ∧ st2.last_sent_id = st.last_sent_id := by
  have hdl : dl ≠ 0 := by
    rcases payload with _ | ⟨b, r2⟩
    · simp at hget
    · simp only [List.length_cons] at hlen
      omega
  have hpd := processData_ack_found st dl payload a t hdl hget hp
  refine ⟨{ st with pending_acks := fun k =>
      if k = a then some { t with acked := true }
      else st.pending_acks k },
    if (rc == calculate_crc8 (CMD_ACK :: i :: dl :: payload)) = true
      then [LogEvent.ackResolved a]
      else [LogEvent.ackResolved a] ++ [LogEvent.crcError i],
    ?_, by simp, ?_, rfl⟩
  · unfold process_binary_message
    rw [parse_envelope_eq CMD_ACK i dl rc payload hlen hi]
    simp only []
    rw [hpd]
    simp only []
    rw [if_neg (by simp)]
  · intro k hk
    simp [hk]

/-- Witness for C9: an ACK envelope with payload [7] (and an arbitrary,
even invalid, trailing checksum byte 0) resolves the pending transaction
stored for id 7 and changes nothing else. -/
theorem ack_resolution_minimal_change_witness :
    ∃ st2 ev, process_binary_message [] 0
        ⟨3, fun k => if k = 7 then some ⟨0x10, 42, false⟩ else none⟩
        ((CMD_ACK :: 5 :: 1 :: [7]) ++ [0]) = some ⟨st2, [], ev⟩
      ∧ st2.pending_acks 7 = some ⟨0x10, 42, true⟩
      ∧ (∀ k, k ≠ 7 → st2.pending_acks k =
          (⟨3, fun k => if k = 7 then some ⟨0x10, 42, false⟩ else none⟩ :
            CommState).pending_acks k)
      ∧ st2.last_sent_id =
          (⟨3, fun k => if k = 7 then some ⟨0x10, 42, false⟩ else none⟩ :
            CommState).last_sent_id :=
  ack_resolution_minimal_change [] 0
    ⟨3, fun k => if k = 7 then some ⟨0x10, 42, false⟩ else none⟩
    5 1 0 7 [7] ⟨0x10, 42, false⟩ rfl (by decide) rfl rfl

theorem generate_msg_id_isSome (draws : List Nat) (last : Nat) :
    (∃ d ∈ draws, d ≠ 0 ∧ d ≠ last) →
      (generate_msg_id draws last).isSome := by
  induction draws with
  | nil =>
    intro h
    simp at h
  | cons d rest ih =>
    rintro ⟨x, hx, hx0, hxl⟩
    simp only [generate_msg_id]
    by_cases hcond : d = last ∨ d = 0
    · rw [if_pos hcond]
      apply ih
      rcases List.mem_cons.mp hx with rfl | hx2
      · cases hcond with
        | inl hh => exact absurd hh hxl
        | inr hh => exact absurd hh hx0
      · exact ⟨x, hx2, hx0, hxl⟩
    · rw [if_neg hcond]
      rfl

/-- Claim C10: for every decoded byte sequence handed to the dispatcher, the
call completes with a defined outcome (it never evaluates to none, the
model's stand-in for an uncaught exception): header byte accesses are
covered by the minimum-length and exact-length checks, the ACK branch's
payload access is covered by the data_length > 0 guard, and the telemetry
branches decode under their own length guards with any unpack failure
mapped to a caught-and-logged outcome rather than none. The draws
hypothesis (two distinct nonzero values available to the random source)
rules out only the non-termination of the id retry loop in the auto-ack
path, which is not an exception. -/
theorem dispatcher_no_uncaught_exception (draws : List Nat) (now : Nat)
    (st : CommState) (decoded : List Nat)
    (hdraws : ∃ d1 ∈ draws, ∃ d2 ∈ draws, d1 ≠ d2 ∧ d1 ≠ 0 ∧ d2 ≠ 0) :
    (process_binary_message draws now st decoded).isSome := by
  have hgen : ∀ last, (generate_msg_id draws last).isSome := by
    intro last
    obtain ⟨d1, hm1, d2, hm2, hne, h10, h20⟩ := hdraws
    apply generate_msg_id_isSome
    by_cases h : d1 = last
    · subst h
      exact ⟨d2, hm2, h20, fun hh => hne hh.symm⟩
    · exact ⟨d1, hm1, h10, h⟩
  obtain ⟨r, hr, hok⟩ := parse_envelope_cases decoded
  unfold process_binary_message
  rw [hr]
  cases r with
  | tooShort n => simp
  | lengthMismatch e g => simp
  | invalidId => simp
  | ok c i dl payload rc cv =>
    have hpl : payload.length = dl := hok c i dl payload rc cv rfl
    have hps := processData_isSome st c dl payload hpl
    cases hpd : processData st c dl payload with
    | none =>
        rw [hpd] at hps
        simp at hps
    | some pr =>
        obtain ⟨st1, ev1⟩ := pr
        simp only []
        rw [hpd]
        simp only []
        by_cases hcv : c ≠ CMD_ACK ∧ cv = true
        · rw [if_pos hcv]
          have hg1 := hgen st1.last_sent_id
          unfold send_command
          cases hg2 : generate_msg_id draws st1.last_sent_id with
          | none =>
              rw [hg2] at hg1
              simp at hg1
          | some v => simp
        · rw [if_neg hcv]
          simp

/-- Witness for C10: a STATUS envelope with an invalid checksum byte is
processed to a defined outcome with the random source able to draw 1
or 2. -/
theorem dispatcher_no_uncaught_exception_witness :
    (process_binary_message [1, 2] 0 ⟨0, fun _ => none⟩
      [0x22, 5, 0, 99]).isSome :=
  dispatcher_no_uncaught_exception [1, 2] 0 ⟨0, fun _ => none⟩
    [0x22, 5, 0, 99] (by decide)

set_option maxRecDepth 8000 in
/-- Claim C1 fails on the code: the decoded bytes [0x01, 0x05, 0x01, 0x07, 0x00]
form an ACK envelope for id 7 whose trailing checksum byte 0x00 differs
from the recomputed checksum 0x07 of the preceding bytes. The dispatcher
does report the checksum error (crcError 5 is logged even in non-verbose
mode) and does not emit an acknowledgment (sent = []), but it has already
processed the payload before consulting crc_valid: the pending
transaction for id 7 is marked acknowledged. The claim's required
"no further effect" is therefore violated; the analogous STATUS and
POSITION paths likewise surface telemetry before the checksum gate. -/
theorem crc_invalid_ack_still_processed :
    (process_binary_message [] 0
        ⟨0, fun k => if k = 7 then some ⟨0x10, 42, false⟩ else none⟩
        [1, 5, 1, 7, 0]).map
      (fun o => (o.st.pending_acks 7, o.sent, o.events)) =
    some (some ⟨0x10, 42, true⟩, [],
      [LogEvent.ackResolved 7, LogEvent.crcError 5]) := by
  decide
